import Mathlib

/-!
# Verification of rrlib_time (finrocmirror/rrlib_time)

Shallow embedding of `rrlib/time/time.cpp` and proofs about it.

Conventions of the embedding:

* C++ 64-bit unsigned words (`uint64_t`) are `Nat` values `< 2^64`; every
  operation that can wrap is followed by an explicit `% 2^64`.
* C++ `int64_t` values are `Int`; reinterpreting an `int64_t` as a
  `uint64_t` is `toBits64`, the inverse is `toInt64`.
* C++ `/` on signed integers truncates towards zero, embedded as
  `Int.tdiv`; C++ `>>` on a signed integer is an arithmetic shift,
  i.e. floor division, embedded via `Int.fdiv`.
* Strings are processed as `List Char` (`String.data`).
* The atomics in `time.cpp` are only ever read in a quiescent state by the
  claims treated here (single writer under the global mutex, loads with no
  interleaved store), so the parameter words are plain state fields and the
  reader's retry loop either succeeds on one of its two checks or spins
  forever; the forever case is `Option.none`.
-/

namespace RRLibTime

/-! ## Two's-complement helpers -/

/-- Reinterpret an `int64_t` value as its 64-bit two's-complement pattern. -/
def toBits64 (i : Int) : Nat := (i % (2 ^ 64 : Int)).toNat

/-- Reinterpret a 64-bit pattern as an `int64_t` value. -/
def toInt64 (x : Nat) : Int := if x < 2 ^ 63 then (x : Int) else (x : Int) - 2 ^ 64

/-! ## Time stretching parameters and the lock-free parameter store
(`time.cpp` lines 83-157) -/

/-- `struct tTimeStretchingParameters` (time.cpp:83-87): numerator and
denominator are C `uint`, `time_diff` is a duration in nanoseconds
(`int64_t`). -/
structure tTimeStretchingParameters where
  time_scaling_numerator : Nat
  time_scaling_denominator : Nat
  time_diff : Int
deriving DecidableEq, Repr

/-- `cNUMERATOR_MASK = 0xFFFFF` (20 bit), time.cpp:90. -/
def cNUMERATOR_MASK : Nat := 0xFFFFF

/-- `cSTAMP_MASK = 0xFFF` (12 bit), time.cpp:91. -/
def cSTAMP_MASK : Nat := 0xFFF

/-- The four atomic words of the parameter store (time.cpp:106-109):
primary pair and copy pair. -/
structure StoreState where
  params1 : Nat
  params2 : Nat
  params1_copy : Nat
  params2_copy : Nat
deriving DecidableEq, Repr

/-- Initial value `1LL << 32` of all four atomics (time.cpp:106-109). -/
def initialStore : StoreState := ⟨2 ^ 32, 2 ^ 32, 2 ^ 32, 2 ^ 32⟩

/-- `tParameterStoreHelper::GetStamp` (time.cpp:96-101): the two 12-bit top
stamps if they agree, `-1` otherwise. -/
def getStamp (w0 w1 : Nat) : Int :=
  if w0 >>> 52 = w1 >>> 52 then ((w0 >>> 52 : Nat) : Int) else -1

/-- C++ `&&` applied to integers: `1` if both are nonzero, else `0`.
`LoadParameters` (time.cpp:139-140) uses `&&` where the bit layout
documented at time.cpp:94 calls for bitwise `&`; the embedding keeps the
operator that is actually in the source. -/
def cppAnd (a b : Nat) : Nat := if a ≠ 0 ∧ b ≠ 0 then 1 else 0

/-- Decoding step of `LoadParameters` (time.cpp:139-141), applied to a
consistent word pair. -/
def decodeParameters (w0 w1 : Nat) : tTimeStretchingParameters :=
  { time_scaling_numerator := cppAnd (w0 >>> 32) cNUMERATOR_MASK
    time_scaling_denominator := cppAnd (w1 >>> 32) cNUMERATOR_MASK
    time_diff := toInt64 (((w0 <<< 32) % 2 ^ 64) ||| (w1 &&& 0xFFFFFFFF)) }

/-- `LoadParameters` (time.cpp:119-142) in a quiescent store: return the
primary pair if its stamps agree, otherwise the copy pair if its stamps
agree; otherwise the C loop repeats the same two checks forever (`none`). -/
def loadParameters (s : StoreState) : Option tTimeStretchingParameters :=
  if getStamp s.params1 s.params2 ≠ -1 then some (decodeParameters s.params1 s.params2)
  else if getStamp s.params1_copy s.params2_copy ≠ -1 then
    some (decodeParameters s.params1_copy s.params2_copy)
  else none

/-- First packed word built by `StoreParameters` (time.cpp:151):
`(counter << 52) | (int64(numerator) << 32) | (diff >> 32)`; `diff >> 32`
is an arithmetic shift of the `int64_t`, i.e. floor division. -/
def encodeWord0 (counter n : Nat) (diff : Int) : Nat :=
  (counter <<< 52) ||| (n <<< 32) ||| toBits64 (diff.fdiv (2 ^ 32))

/-- Second packed word built by `StoreParameters` (time.cpp:152):
`(counter << 52) | (int64(denominator) << 32) | (diff & 0xFFFFFFFF)`. -/
def encodeWord1 (counter d : Nat) (diff : Int) : Nat :=
  (counter <<< 52) ||| (d <<< 32) ||| (toBits64 diff &&& 0xFFFFFFFF)

/-- `StoreParameters` (time.cpp:145-157): bump the static stamp counter
(`counter = (counter + 1) & cSTAMP_MASK`), build both words, write them to
the primary pair and then to the copy pair. Returns the new store contents
and the new counter. -/
def storeParameters (p : tTimeStretchingParameters) (counter : Nat) : StoreState × Nat :=
  let counter' := (counter + 1) &&& cSTAMP_MASK
  let w0 := encodeWord0 counter' p.time_scaling_numerator p.time_diff
  let w1 := encodeWord1 counter' p.time_scaling_denominator p.time_diff
  ({ params1 := w0, params2 := w1, params1_copy := w0, params2_copy := w1 }, counter')

/-- The four atomic locations written by `StoreParameters`. -/
inductive StoreLoc
  | primary1
  | primary2
  | copy1
  | copy2
deriving DecidableEq, Repr

/-- Whether a location belongs to the primary pair. -/
def StoreLoc.isPrimary : StoreLoc → Bool
  | .primary1 => true
  | .primary2 => true
  | _ => false

/-- Whether a location belongs to the copy pair. -/
def StoreLoc.isCopy : StoreLoc → Bool
  | .copy1 => true
  | .copy2 => true
  | _ => false

/-- The sequence of atomic stores issued by `StoreParameters`, in program
order (time.cpp:153-156). -/
def storeParametersWrites (p : tTimeStretchingParameters) (counter : Nat) :
    List (StoreLoc × Nat) :=
  let counter' := (counter + 1) &&& cSTAMP_MASK
  let w0 := encodeWord0 counter' p.time_scaling_numerator p.time_diff
  let w1 := encodeWord1 counter' p.time_scaling_denominator p.time_diff
  [(.primary1, w0), (.primary2, w1), (.copy1, w0), (.copy2, w1)]

/-! ## Time engine state and operations (`time.cpp` lines 80-279) -/

/-- `enum class tTimeMode` (time.h:91-96). -/
inductive tTimeMode
  | SYSTEM_TIME
  | STRETCHED_SYSTEM_TIME
  | CUSTOM_CLOCK
deriving DecidableEq, Repr

/-- The three kinds of listener callbacks fired by
`tTimeStretchingListener::NotifyListeners` (tTimeStretchingListener.h). -/
inductive tNotification
  | timeChanged (current_time : Int)
  | timeModeChanged (new_mode : tTimeMode)
  | timeStretchingFactorChanged (app_time_faster : Bool)
deriving DecidableEq, Repr

/-- The mutable globals of `time.cpp` relevant to the claims: `mode`
(time.cpp:80), the four parameter words (106-109), the static stamp
counter of `StoreParameters` (147), and `current_time` (113). Timestamps
and durations are nanosecond counts (`Int`). -/
structure EngineState where
  mode : tTimeMode
  store : StoreState
  counter : Nat
  current_time : Int
deriving DecidableEq, Repr

/-- State at process start: mode `SYSTEM_TIME` (time.cpp:80), parameter
words `1LL << 32`, stamp counter `0` (time.cpp:147). -/
def initialState : EngineState :=
  { mode := .SYSTEM_TIME, store := initialStore, counter := 0, current_time := 0 }

/-- `ToApplicationTime` (time.cpp:160-178). `app_start` is the global
`application_start` timestamp. In `STRETCHED_SYSTEM_TIME` mode the loaded
ticks are divided by the denominator and then multiplied by the numerator,
both with C++ truncating semantics; `none` means `LoadParameters` never
returns. -/
def toApplicationTime (app_start : Int) (st : EngineState) (system_time : Int) : Option Int :=
  match st.mode with
  | .SYSTEM_TIME => some system_time
  | .CUSTOM_CLOCK => some st.current_time
  | .STRETCHED_SYSTEM_TIME =>
    (loadParameters st.store).map fun p =>
      let ticks := (system_time - app_start - p.time_diff).tdiv
          (p.time_scaling_denominator : Int) * (p.time_scaling_numerator : Int)
      app_start + ticks

/-- Exact comparison standing for the `double` comparison
`new_factor != old_factor` in `SetTimeStretching` (time.cpp:236-238),
as cross multiplication. This is faithful on every comparison the code can
perform: one side is `numerator/denominator` with both operands validated
into `1..1000000` and the other side comes from `decodeParameters`, whose
`&&`-built fields are `0` or `1`; quotients of integers up to `10^6`
collide in `double` only when equal as rationals, because their relative
spacing is at least `2^-40` while `double` rounding error is below
`2^-52`. -/
def factorNe (n1 d1 n2 d2 : Nat) : Bool := n1 * d2 ≠ n2 * d1

/-- Exact comparison standing for the `double` comparison
`new_factor > old_factor` (time.cpp:254); faithful for the same reason as
`factorNe`. -/
def factorGt (n1 d1 n2 d2 : Nat) : Bool := n1 * d2 > n2 * d1

/-- `SetTimeStretching` (time.cpp:220-260). Returns the successor state
and the list of listener notifications in the order fired; `none` means a
`LoadParameters` call inside never returns. Out-of-range arguments only
log to `cerr` and leave everything unchanged. -/
def setTimeStretching (app_start : Int) (numerator denominator : Nat) (system_time : Int)
    (st : EngineState) : Option (EngineState × List tNotification) :=
  if numerator = 0 ∨ 1000000 < numerator ∨ denominator = 0 ∨ 1000000 < denominator then
    some (st, [])
  else
    match loadParameters st.store with
    | none => none
    | some p =>
      if factorNe numerator denominator p.time_scaling_numerator p.time_scaling_denominator then
        match toApplicationTime app_start st system_time with
        | none => none
        | some app_time =>
          let params' : tTimeStretchingParameters :=
            ⟨numerator, denominator, system_time - app_time⟩
          let sc := storeParameters params' st.counter
          let mode_notifs : List tNotification :=
            if st.mode ≠ .STRETCHED_SYSTEM_TIME then
              [.timeModeChanged .STRETCHED_SYSTEM_TIME]
            else []
          some ({ mode := .STRETCHED_SYSTEM_TIME, store := sc.1, counter := sc.2,
                  current_time := st.current_time },
                mode_notifs ++ [.timeStretchingFactorChanged
                  (factorGt numerator denominator p.time_scaling_numerator
                    p.time_scaling_denominator)])
      else some (st, [])

/-- `ToSystemDuration` (time.cpp:262-279). The branch test
`(app_duration.count() >> 44) == 0` is an arithmetic shift, hence floor
division by `2^44`; it selects multiply-then-divide, the other branch
divides first. `none` again marks a `LoadParameters` that never returns. -/
def toSystemDuration (mode : tTimeMode) (store : StoreState) (app_duration : Int) : Option Int :=
  match mode with
  | .SYSTEM_TIME => some app_duration
  | .CUSTOM_CLOCK => some app_duration
  | .STRETCHED_SYSTEM_TIME =>
    (loadParameters store).map fun p =>
      if app_duration.fdiv (2 ^ 44) = 0 then
        (app_duration * (p.time_scaling_numerator : Int)).tdiv (p.time_scaling_denominator : Int)
      else
        app_duration.tdiv (p.time_scaling_denominator : Int) * (p.time_scaling_numerator : Int)

/-! ## Calendar arithmetic (embedding of glibc `timegm` / `gmtime_r` on the
UTC proleptic Gregorian calendar) -/

/-- Gregorian leap-year rule. -/
def isLeapYear (y : Nat) : Bool := (y % 4 = 0 && y % 100 ≠ 0) || y % 400 = 0

/-- Days in calendar year `y`. -/
def daysInYear (y : Nat) : Nat := if isLeapYear y then 366 else 365

/-- Days from 1970-01-01 to the first day of year `1970 + k`. -/
def daysBeforeYearOffset : Nat → Nat
  | 0 => 0
  | k + 1 => daysBeforeYearOffset k + daysInYear (1970 + k)

/-- Month lengths, January first. -/
def monthLengths (leap : Bool) : List Nat :=
  [31, if leap then 29 else 28, 31, 30, 31, 30, 31, 31, 30, 31, 30, 31]

/-- Days from the first of January to the first of 0-based month `mon` of a
year with leap flag `leap`. -/
def daysBeforeMonth (leap : Bool) (mon : Nat) : Nat := ((monthLengths leap).take mon).sum

/-- Days from the first day of year `1970 - k` to 1970-01-01 (the years
1969 down to `1970 - k`, summed). -/
def daysBeforeEpochOffset : Nat → Nat
  | 0 => 0
  | k + 1 => daysBeforeEpochOffset k + daysInYear (1969 - k)

/-- The `struct tm` fields used by `time.cpp`: `tm_year` is years since
1900 (a C `int`, negative for years before 1900, so `Int` here), `tm_mon`
is 0-based. The remaining fields the parsers produce are nonnegative. -/
structure TmFields where
  tm_sec : Nat
  tm_min : Nat
  tm_hour : Nat
  tm_mday : Nat
  tm_mon : Nat
  tm_year : Int
deriving DecidableEq, Repr

/-- glibc `timegm`: seconds since the epoch of the given UTC broken-down
time, negative for instants before 1970, with out-of-range `tm_mon` and
`tm_mday` normalized the way glibc does (months overflow into years,
`tm_mday` is simply day offset + 1, also when that lands before the
month). Embedded for calendar years from 0 on, which covers every
four-digit timestamp year and every duration the parsers produce. -/
def timegm (t : TmFields) : Int :=
  let year : Int := 1900 + t.tm_year + (t.tm_mon / 12 : Nat)
  let mon := t.tm_mon % 12
  let yearN := year.toNat
  let days : Int :=
    (if 1970 ≤ year then (daysBeforeYearOffset (yearN - 1970) : Int)
     else -(daysBeforeEpochOffset (1970 - yearN) : Int)) +
    (daysBeforeMonth (isLeapYear yearN) mon : Int) + (t.tm_mday : Int) - 1
  days * 86400 + t.tm_hour * 3600 + t.tm_min * 60 + t.tm_sec

/-- Year / day-of-year decomposition loop of `gmtime_r`: starting from
1970, peel off whole years. The fuel is an upper bound on the number of
iterations (the day count itself always suffices). -/
def civilFromDaysGo : Nat → Nat → Nat → Nat × Nat
  | 0, y, d => (y, d)
  | fuel + 1, y, d => if d < daysInYear y then (y, d) else civilFromDaysGo fuel (y + 1) (d - daysInYear y)

/-- glibc `gmtime_r` reduced to the fields `ToIsoString(tDuration)` reads:
calendar year and 0-based day of year of epoch day number `days`. -/
def civilFromDays (days : Nat) : Nat × Nat := civilFromDaysGo days 1970 days

/-! ## ISO duration formatting (`ToIsoString(const tDuration&)`,
time.cpp:466-523) -/

/-- `%0<width>d`: decimal with leading zeros. -/
def padNum (width n : Nat) : String :=
  let s := toString n
  String.mk (List.replicate (width - s.length) '0') ++ s

/-- The `sub_seconds` buffer of time.cpp:504-517 (also time.cpp:348-363):
empty for zero, otherwise the coarsest of 3/6/9 digits that is exact. -/
def subSeconds (ns : Nat) : String :=
  if ns = 0 then ""
  else if ns % 1000000 = 0 then "." ++ padNum 3 (ns / 1000000)
  else if ns % 1000 = 0 then "." ++ padNum 6 (ns / 1000)
  else "." ++ padNum 9 ns

/-- `ToIsoString(const tDuration&)` (time.cpp:466-523). The C code pushes
the duration through `gmtime_r`; the embedding covers nonnegative
durations (`none` for negative input, which no claim here exercises). -/
def toIsoStringDuration (d : Int) : Option String :=
  if d < 0 then none
  else
    let total := d.toNat
    let sec := total / 1000000000
    let ns := total % 1000000000
    let yd := civilFromDays (sec / 86400)
    let year := yd.1 - 1970
    let yday := yd.2
    let rem := sec % 86400
    let hour := rem / 3600
    let minute := rem % 3600 / 60
    let s := rem % 60
    some ("P" ++ (if year ≠ 0 then toString year ++ "Y" else "")
      ++ (if yday ≠ 0 then toString yday ++ "D" else "")
      ++ (if hour ≠ 0 ∨ minute ≠ 0 ∨ s ≠ 0 ∨ ns ≠ 0 then
            "T" ++ (if hour ≠ 0 then toString hour ++ "H" else "")
              ++ (if minute ≠ 0 then toString minute ++ "M" else "")
              ++ (if s ≠ 0 ∨ ns ≠ 0 then toString s ++ subSeconds ns ++ "S" else "")
          else ""))

/-! ## ISO duration parsing (`ParseIsoDuration`, time.cpp:367-464) -/

/-- Value of a decimal digit character. -/
def digitVal (c : Char) : Nat := c.toNat - 48

/-- `atoi` on a digit string. -/
def natOfDigits (ds : List Char) : Nat := ds.foldl (fun a c => a * 10 + digitVal c) 0

/-- Fractional-second preprocessing of `ParseIsoDuration`
(time.cpp:383-400): when the string ends in `S` and the digits before it
are preceded by a dot, the value of the fraction (at most nine digits are
copied into the zero-filled nanosecond buffer) and the string with
`.digits` cut out; otherwise the string unchanged. -/
def stripFractionalSeconds (s : List Char) : Nat × List Char :=
  match s.reverse with
  | 'S' :: rest =>
    match rest.dropWhile Char.isDigit with
    | '.' :: beforeRev =>
      let fd := (rest.takeWhile Char.isDigit).reverse
      let used := fd.take 9
      (natOfDigits used * 10 ^ (9 - used.length), beforeRev.reverse ++ ['S'])
    | _ => (0, s)
  | _ => (0, s)

/-- Initial `tm` of `ParseIsoDuration` (time.cpp:369-372): zeroed except
`tm_year = 70`, `tm_mday = 1`. -/
def initialDurationTm : TmFields :=
  { tm_sec := 0, tm_min := 0, tm_hour := 0, tm_mday := 1, tm_mon := 0, tm_year := 70 }

/-- Main scan of `ParseIsoDuration` (time.cpp:402-460), one character per
step. `cur` holds the pending digit run being accumulated (the C code
reads the whole run with `atoi` and then switches on the following
character; accumulating digit by digit is the same function). Errors
mirror the `throw` sites: a digit run followed by anything but
`Y`/`M`/`D`/`H`/`S` (including end of string), `H` or `S` before `T`, and
any stray character. -/
def parseDurationLoop (time : Bool) (cur : Option Nat) (t : TmFields) :
    List Char → Except String TmFields
  | [] =>
    match cur with
    | none => .ok t
    | some _ => .error "Invalid duration string"
  | c :: rest =>
    if c.isDigit then
      parseDurationLoop time (some ((cur.getD 0) * 10 + digitVal c)) t rest
    else
      match cur with
      | some num =>
        if c = 'Y' then parseDurationLoop time none { t with tm_year := (70 + num : Int) } rest
        else if c = 'M' then
          if time then parseDurationLoop time none { t with tm_min := num } rest
          else parseDurationLoop time none { t with tm_mon := num } rest
        else if c = 'D' then parseDurationLoop time none { t with tm_mday := num + 1 } rest
        else if c = 'H' then
          if time then parseDurationLoop time none { t with tm_hour := num } rest
          else .error "Invalid duration string"
        else if c = 'S' then
          if time then parseDurationLoop time none { t with tm_sec := num } rest
          else .error "Invalid duration string"
        else .error "Invalid duration string"
      | none =>
        if c = 'T' then parseDurationLoop true none t rest
        else .error "Invalid duration string"

/-- `ParseIsoDuration` (time.cpp:367-464): leading-`P` check, fractional
second preprocessing, main scan, then `timegm` plus the nanosecond rest.
The result is the duration in nanoseconds. -/
def parseIsoDuration (s : List Char) : Except String Int :=
  match s with
  | [] => .error "Duration string does not start with P"
  | c :: _ =>
    if c ≠ 'P' then .error "Duration string does not start with P"
    else
      let fc := stripFractionalSeconds s
      match parseDurationLoop false none initialDurationTm (fc.2.drop 1) with
      | .error e => .error e
      | .ok t => .ok (timegm t * 1000000000 + (fc.1 : Int))

/-- Specification-side recognizer for the strings `ParseIsoDuration`
accepts, written from the amended claim C8: after the leading `P` and
after stripping a trailing `.fraction` before a final `S`, the body must
consist of digit runs each followed by one of the unit letters
`Y`/`M`/`D`/`H`/`S` (months accepted), possibly interspersed with a `T`
marker; `H` and `S` may appear only after a `T`; no other characters and
no dangling digit run. `pending` tracks whether a digit run is open. -/
def durationBodyAccepted (seenT pending : Bool) : List Char → Bool
  | [] => !pending
  | c :: rest =>
    if c.isDigit then durationBodyAccepted seenT true rest
    else if pending then
      if c = 'Y' ∨ c = 'M' ∨ c = 'D' then durationBodyAccepted seenT false rest
      else if c = 'H' ∨ c = 'S' then seenT && durationBodyAccepted seenT false rest
      else false
    else if c = 'T' then durationBodyAccepted true false rest
    else false

/-- Specification-side acceptance for whole duration strings (amended
claim C8). -/
def durationAccepted (s : List Char) : Bool :=
  match s with
  | [] => false
  | c :: _ => c = 'P' && durationBodyAccepted false false ((stripFractionalSeconds s).2.drop 1)

/-! ## ISO timestamp parsing (`ParseIsoTimestamp`, time.cpp:281-322) -/

/-- Two decimal digits. -/
def read2 : List Char → Option (Nat × List Char)
  | c1 :: c2 :: rest =>
    if c1.isDigit ∧ c2.isDigit then some (digitVal c1 * 10 + digitVal c2, rest) else none
  | _ => none

/-- Four decimal digits. -/
def read4 : List Char → Option (Nat × List Char)
  | c1 :: c2 :: c3 :: c4 :: rest =>
    if c1.isDigit ∧ c2.isDigit ∧ c3.isDigit ∧ c4.isDigit then
      some (((digitVal c1 * 10 + digitVal c2) * 10 + digitVal c3) * 10 + digitVal c4, rest)
    else none
  | _ => none

/-- One fixed separator character. -/
def expectChar (e : Char) : List Char → Option (List Char)
  | c :: rest => if c = e then some rest else none
  | _ => none

/-- Fractional seconds of `ParseIsoTimestamp` (time.cpp:289-305): after a
dot the loop copies up to nine digits into the zero-filled buffer, but its
cursor stops ON the ninth digit rather than behind it, so with nine or
more fraction digits only eight are consumed from the input position. -/
def timestampFraction (rest : List Char) : Nat × List Char :=
  match rest with
  | '.' :: more =>
    let digs := more.takeWhile Char.isDigit
    if digs.length ≤ 8 then (natOfDigits digs * 10 ^ (9 - digs.length), more.drop digs.length)
    else (natOfDigits (digs.take 9), more.drop 8)
  | _ => (0, rest)

/-- Timezone handling of `ParseIsoTimestamp` (time.cpp:306-318): if the
cursor is on `+` or `-` and a colon occurs anywhere later, `atoi` reads
the signed hour up to the colon (`tz = atoi(c) * -3600`), and a minute
part whose first character is `3` contributes another signed half hour;
otherwise (including `Z` and absence) the offset is zero. -/
def parseTzOffset (after : List Char) : Int :=
  match after with
  | [] => 0
  | c :: rest1 =>
    if (c = '+' ∨ c = '-') ∧ (c :: rest1).contains ':' then
      let sign : Int := if c = '-' then -1 else 1
      let upToColon := rest1.takeWhile (fun x => x ≠ ':')
      let hh := natOfDigits (upToColon.takeWhile Char.isDigit)
      let afterColon := (rest1.dropWhile (fun x => x ≠ ':')).drop 1
      sign * (hh : Int) * (-3600) +
        (if afterColon.head? = some '3' then sign * (-1800) else 0)
    else 0

/-- `ParseIsoTimestamp` (time.cpp:281-322): `strptime("%FT%T")` on the
canonical fixed-width date-time (with glibc field range validation; `%Y`
itself has no range restriction), fractional seconds, timezone, then
`timegm(&t) + tz` seconds plus the nanosecond rest. Returns `none` where
`strptime` fails (there the C code falls through to a garbage value from
the zeroed `tm`; no claim exercises that path). -/
def parseIsoTimestamp (s : List Char) : Option Int := do
  let yr ← read4 s
  let r2 ← expectChar '-' yr.2
  let mr ← read2 r2
  let r4 ← expectChar '-' mr.2
  let dr ← read2 r4
  let r6 ← expectChar 'T' dr.2
  let hr ← read2 r6
  let r8 ← expectChar ':' hr.2
  let mir ← read2 r8
  let r10 ← expectChar ':' mir.2
  let sr ← read2 r10
  if 1 ≤ mr.1 ∧ mr.1 ≤ 12 ∧ 1 ≤ dr.1 ∧ dr.1 ≤ 31 ∧ hr.1 ≤ 23 ∧
      mir.1 ≤ 59 ∧ sr.1 ≤ 60 then
    let fr := timestampFraction sr.2
    let tz := parseTzOffset fr.2
    let t : TmFields :=
      { tm_sec := sr.1, tm_min := mir.1, tm_hour := hr.1, tm_mday := dr.1,
        tm_mon := mr.1 - 1, tm_year := (yr.1 : Int) - 1900 }
    some ((timegm t + tz) * 1000000000 + (fr.1 : Int))
  else none

/-! ## Specification-side renderer of well-formed ISO timestamps (claim C4) -/

/-- The decimal digit character for `d < 10`. -/
def digitChar (d : Nat) : Char := Char.ofNat (48 + d)

/-- Two-digit zero-padded decimal rendering. -/
def renderTwo (n : Nat) : List Char := [digitChar (n / 10), digitChar (n % 10)]

/-- Four-digit zero-padded decimal rendering. -/
def renderFour (n : Nat) : List Char :=
  [digitChar (n / 1000), digitChar (n / 100 % 10), digitChar (n / 10 % 10), digitChar (n % 10)]

/-- A timezone designator as described by claim C4: `Z`, absent, or a
signed `HH:MM` offset. -/
inductive TzDesignator
  | absent
  | zulu
  | offset (negative : Bool) (oh om : Nat)
deriving DecidableEq, Repr

/-- Rendering of a timezone designator. -/
def renderTzDesignator : TzDesignator → List Char
  | .absent => []
  | .zulu => ['Z']
  | .offset neg oh om => (if neg then '-' else '+') :: (renderTwo oh ++ [':'] ++ renderTwo om)

/-- A well-formed `YYYY-MM-DDTHH:MM:SS[.frac][designator]` string in the
sense of claim C4, rendered from its fields. -/
def renderTimestamp (y mo dy hh mi ss : Nat) (frac : List Nat) (tz : TzDesignator) :
    List Char :=
  renderFour y ++ ['-'] ++ renderTwo mo ++ ['-'] ++ renderTwo dy ++ ['T'] ++ renderTwo hh ++
    [':'] ++ renderTwo mi ++ [':'] ++ renderTwo ss ++
    (if frac.isEmpty then [] else '.' :: frac.map digitChar) ++ renderTzDesignator tz

/-- Nanosecond value of a fraction-digit list as stated by claim C4:
`d` digits denote `digits × 10^(9−d)` nanoseconds. -/
def fracValue (frac : List Nat) : Nat :=
  frac.foldl (fun a d => a * 10 + d) 0 * 10 ^ (9 - frac.length)

/-- Seconds adjustment stated by claim C4: UTC for `Z` or absent, and for
an offset, subtraction of `±(HH hours, plus a half hour when the minutes
component starts with 3)`. -/
def claimTzShift : TzDesignator → Int
  | .absent => 0
  | .zulu => 0
  | .offset neg oh om =>
    -(if neg then (-1 : Int) else 1) * ((oh : Int) * 3600 + (if om / 10 = 3 then 1800 else 0))

/-! ## Auxiliary lemmas about the packed parameter words -/

/-- Disjoint bit ranges: `or` of a left-shifted value with a value below
the shift width is addition. -/
theorem shiftLeft_lor_eq_add {a b : Nat} (k : Nat) (hb : b < 2 ^ k) :
    (a <<< k) ||| b = a <<< k + b := by
  rw [Nat.shiftLeft_eq]
  apply Nat.eq_of_testBit_eq
  intro i
  rw [Nat.testBit_lor, Nat.mul_comm, Nat.testBit_mul_pow_two_add a hb i, Nat.testBit_mul_pow_two]
  rcases Nat.lt_or_ge i k with h | h
  · simp [h, Nat.not_le.mpr h]
  · have hb2 : b.testBit i = false :=
      Nat.testBit_lt_two_pow (lt_of_lt_of_le hb (Nat.pow_le_pow_right (by norm_num) h))
    simp [h, Nat.not_lt.mpr h, hb2]

/-- Masking with `2^k - 1` is reduction mod `2^k`. -/
theorem land_two_pow_sub_one (x k : Nat) : x &&& (2 ^ k - 1) = x % 2 ^ k := by
  apply Nat.eq_of_testBit_eq
  intro i
  rw [Nat.testBit_land, Nat.testBit_two_pow_sub_one, Nat.testBit_mod_two_pow]
  exact Bool.and_comm _ _

/-- Arithmetic form of a packed parameter word whose three fields do not
overlap. -/
theorem encode_arith {c n hi : Nat} (hn : n < 2 ^ 20) (hhi : hi < 2 ^ 32) :
    (c <<< 52) ||| (n <<< 32) ||| hi = c * 2 ^ 52 + n * 2 ^ 32 + hi := by
  rw [Nat.lor_assoc, shiftLeft_lor_eq_add 32 hhi,
    shiftLeft_lor_eq_add 52 (by rw [Nat.shiftLeft_eq]; omega), Nat.shiftLeft_eq, Nat.shiftLeft_eq]
  omega

/-- `toBits64` is the identity on small natural values. -/
theorem toBits64_natCast {x : Nat} (h : x < 2 ^ 64) : toBits64 (x : Int) = x := by
  simp only [toBits64]
  rw [Int.emod_eq_of_lt (by positivity) (by exact_mod_cast h)]
  exact Int.toNat_natCast x

/-- Arithmetic form of the first word packed by `StoreParameters`, for
nonnegative `time_diff` within `int64` range. -/
theorem encodeWord0_arith (c n : Nat) (diff : Int) (hn : n < 2 ^ 20)
    (h0 : 0 ≤ diff) (h1 : diff < 2 ^ 63) :
    encodeWord0 c n diff = c * 2 ^ 52 + n * 2 ^ 32 + diff.toNat / 2 ^ 32 := by
  have hfdiv : toBits64 (diff.fdiv (2 ^ 32)) = diff.toNat / 2 ^ 32 := by
    have he : diff.fdiv (2 ^ 32) = ((diff.toNat / 2 ^ 32 : Nat) : Int) := by
      rw [Int.fdiv_eq_ediv _ (by norm_num)]
      omega
    rw [he]
    exact toBits64_natCast (Nat.lt_of_le_of_lt (Nat.div_le_self _ _) (by omega))
  simp only [encodeWord0, hfdiv]
  exact encode_arith hn (by omega)

/-- Arithmetic form of the second word packed by `StoreParameters`, for
nonnegative `time_diff` within `int64` range. -/
theorem encodeWord1_arith (c d : Nat) (diff : Int) (hd : d < 2 ^ 20)
    (h0 : 0 ≤ diff) (h1 : diff < 2 ^ 63) :
    encodeWord1 c d diff = c * 2 ^ 52 + d * 2 ^ 32 + diff.toNat % 2 ^ 32 := by
  have hbits : toBits64 diff = diff.toNat := by
    rw [← Int.toNat_of_nonneg h0]
    exact toBits64_natCast (by omega)
  simp only [encodeWord1, hbits,
    show (0xFFFFFFFF : Nat) = 2 ^ 32 - 1 from by norm_num, land_two_pow_sub_one]
  exact encode_arith hd (by omega)

/-- The bumped stamp counter of `StoreParameters` is below `2^12`. -/
theorem bumped_counter_lt (c : Nat) : (c + 1) &&& cSTAMP_MASK < 2 ^ 12 := by
  have h := Nat.and_le_right (n := c + 1) (m := cSTAMP_MASK)
  simp only [cSTAMP_MASK] at h ⊢
  omega

/-- What a quiescent `LoadParameters` returns right after
`StoreParameters` published a validated triple with nonnegative
`time_diff`: the stamps check out, `time_diff` survives, but numerator and
denominator both decode to `1` through the `&&` of time.cpp:139-140. -/
theorem loadParameters_storeParameters (p : tTimeStretchingParameters) (c : Nat)
    (hn1 : 1 ≤ p.time_scaling_numerator) (hn2 : p.time_scaling_numerator < 2 ^ 20)
    (hd1 : 1 ≤ p.time_scaling_denominator) (hd2 : p.time_scaling_denominator < 2 ^ 20)
    (h0 : 0 ≤ p.time_diff) (h1 : p.time_diff < 2 ^ 63) :
    loadParameters (storeParameters p c).1 = some ⟨1, 1, p.time_diff⟩ := by
  obtain ⟨n, d, diff⟩ := p
  simp only at hn1 hn2 hd1 hd2 h0 h1
  have hc'lt : (c + 1) &&& cSTAMP_MASK < 2 ^ 12 := bumped_counter_lt c
  set c' := (c + 1) &&& cSTAMP_MASK with hc'
  have hDcast : ((diff.toNat : Int)) = diff := Int.toNat_of_nonneg h0
  have hD63 : diff.toNat < 2 ^ 63 := by omega
  have hw0 : encodeWord0 c' n diff = c' * 2 ^ 52 + n * 2 ^ 32 + diff.toNat / 2 ^ 32 :=
    encodeWord0_arith c' n diff hn2 h0 h1
  have hw1 : encodeWord1 c' d diff = c' * 2 ^ 52 + d * 2 ^ 32 + diff.toNat % 2 ^ 32 :=
    encodeWord1_arith c' d diff hd2 h0 h1
  have hs0 : encodeWord0 c' n diff >>> 52 = c' := by
    rw [hw0, Nat.shiftRight_eq_div_pow]; omega
  have hs1 : encodeWord1 c' d diff >>> 52 = c' := by
    rw [hw1, Nat.shiftRight_eq_div_pow]; omega
  have hnum : encodeWord0 c' n diff >>> 32 ≠ 0 := by
    rw [hw0, Nat.shiftRight_eq_div_pow]; omega
  have hden : encodeWord1 c' d diff >>> 32 ≠ 0 := by
    rw [hw1, Nat.shiftRight_eq_div_pow]; omega
  have hdiffdec :
      ((encodeWord0 c' n diff <<< 32) % 2 ^ 64) ||| (encodeWord1 c' d diff &&& 0xFFFFFFFF) =
        diff.toNat := by
    have e1 : (encodeWord0 c' n diff <<< 32) % 2 ^ 64 = (diff.toNat / 2 ^ 32) <<< 32 := by
      rw [hw0, Nat.shiftLeft_eq, Nat.shiftLeft_eq]
      omega
    have e2 : encodeWord1 c' d diff &&& 0xFFFFFFFF = diff.toNat % 2 ^ 32 := by
      rw [hw1, show (0xFFFFFFFF : Nat) = 2 ^ 32 - 1 from by norm_num, land_two_pow_sub_one]
      omega
    rw [e1, e2, shiftLeft_lor_eq_add 32 (by omega), Nat.shiftLeft_eq]
    omega
  have hgs : getStamp (encodeWord0 c' n diff) (encodeWord1 c' d diff) = (c' : Int) := by
    simp [getStamp, hs0, hs1]
  simp only [storeParameters, loadParameters, ← hc']
  rw [if_pos (by rw [hgs]; omega)]
  simp only [decodeParameters, cppAnd, cNUMERATOR_MASK]
  rw [if_pos ⟨hnum, by norm_num⟩, if_pos ⟨hden, by norm_num⟩, hdiffdec]
  simp only [toInt64, if_pos hD63, hDcast]

/-! ## Claim theorems: concrete evaluations -/

/-- C1. The claim states that a `StoreParameters`/`LoadParameters` pair
with no intervening store returns exactly the stored triple for any
numerator and denominator in `1..1000000`. The code refutes it: storing
`(numerator 2, denominator 3, time_diff 0)` and loading yields
`(1, 1, 0)`, because `LoadParameters` (time.cpp:139-140) combines the
shifted word with `cNUMERATOR_MASK` using logical `&&` instead of the
bitwise `&` required by the documented bit layout, so any nonzero field
decodes to `1`. -/
theorem C1_store_load_returns_wrong_pair :
    loadParameters (storeParameters ⟨2, 3, 0⟩ 0).1 = some ⟨1, 1, 0⟩ ∧
      (⟨1, 1, 0⟩ : tTimeStretchingParameters) ≠ ⟨2, 3, 0⟩ := by
  constructor
  · rfl
  · decide

/-- C3. The seven literal duration-codec equalities of the claim, computed
by the embedded `ToIsoString(tDuration)` and `ParseIsoDuration`
(durations in nanoseconds). -/
theorem C3_duration_codec_literals :
    toIsoStringDuration (3235 * 1000000000 + 25 * 1000000) = some "PT53M55.025S" ∧
    toIsoStringDuration (43 * 1000000000 + 123400 * 1000) = some "PT43.123400S" ∧
    toIsoStringDuration (24 * 400 * 3600 * 1000000000) = some "P1Y35D" ∧
    (parseIsoDuration "P400D".data).map toIsoStringDuration = .ok (some "P1Y35D") ∧
    (parseIsoDuration "PT43.1234S".data).map toIsoStringDuration = .ok (some "PT43.123400S") ∧
    (parseIsoDuration "P1Y2M4DT3H43.22S".data).map toIsoStringDuration =
      .ok (some "P1Y63DT3H43.220S") ∧
    (parseIsoDuration "P1Y35D".data).map toIsoStringDuration = .ok (some "P1Y35D") := by
  refine ⟨?_, ?_, ?_, ?_, ?_, ?_, ?_⟩ <;> rfl

/-- C5. The claim states that in `StretchedSystemTime` mode
`ToSystemDuration` scales by `denominator/numerator` of the published
parameters. The code refutes it: with published numerator `2` and
denominator `1`, the claim predicts `1000 * 1 / 2 = 500`, but the call
returns `1000` unchanged — the `&&` slip in `LoadParameters`
(time.cpp:139-140) makes the loaded factor `1/1` whatever was published
(and the code would in any case multiply by `numerator/denominator`,
time.cpp:274). -/
theorem C5_stretched_mode_does_not_scale :
    toSystemDuration .STRETCHED_SYSTEM_TIME (storeParameters ⟨2, 1, 0⟩ 0).1 1000 = some 1000 ∧
      ((1000 : Int) * 1).tdiv 2 = 500 ∧ (1000 : Int) ≠ 500 := by
  refine ⟨rfl, by decide, by decide⟩

/-- C6. The claim states that the second of two identical valid
`SetTimeStretching(2, 1)` calls fires no notification of any kind. The
code refutes it: because the `&&` slip in `LoadParameters`
(time.cpp:139-140) always decodes the previously published factor as
`1/1`, the second call again sees `new_factor != old_factor`
(time.cpp:238), republishes, and fires another stretch-direction
notification. -/
theorem C6_second_identical_call_notifies :
    ((setTimeStretching 0 2 1 100 initialState).bind fun r1 =>
        (setTimeStretching 0 2 1 200 r1.1).map Prod.snd) =
      some [tNotification.timeStretchingFactorChanged true] ∧
      [tNotification.timeStretchingFactorChanged true] ≠ ([] : List tNotification) := by
  constructor
  · rfl
  · decide

/-- C7. `SetTimeStretching` with a numerator or denominator outside
`1..1000000` returns without throwing, fires no notification and leaves
the whole engine state (mode, published parameters, stamp counter, custom
clock value) unchanged (time.cpp:222-227). -/
theorem C7_out_of_range_is_rejected_without_state_change
    (app_start : Int) (n d : Nat) (system_time : Int) (st : EngineState)
    (h : n = 0 ∨ 1000000 < n ∨ d = 0 ∨ 1000000 < d) :
    setTimeStretching app_start n d system_time st = some (st, []) := by
  simp only [setTimeStretching, if_pos h]

/-- Witness for C7 at the claim's three concrete inputs `(0, 5)`, `(5, 0)`
and `(2000000, 3)`. -/
theorem C7_witness :
    setTimeStretching 0 0 5 0 initialState = some (initialState, []) ∧
    setTimeStretching 0 5 0 0 initialState = some (initialState, []) ∧
    setTimeStretching 0 2000000 3 0 initialState = some (initialState, []) :=
  ⟨C7_out_of_range_is_rejected_without_state_change 0 0 5 0 initialState (by decide),
   C7_out_of_range_is_rejected_without_state_change 0 5 0 0 initialState (by decide),
   C7_out_of_range_is_rejected_without_state_change 0 2000000 3 0 initialState (by decide)⟩

/-- C10. `ParseIsoDuration("P")` succeeds with the zero duration even
though the string has no numeric component, and the zero duration indeed
formats to `"P"`. -/
theorem C10_parse_P_is_zero :
    parseIsoDuration "P".data = .ok 0 ∧ toIsoStringDuration 0 = some "P" := by
  exact ⟨rfl, rfl⟩

/-- Counterexample to C4 as stated: with a fractional part of exactly nine
digits the timezone designator is ignored. The claim predicts
`(timegm − 3600) s` for `"2000-01-01T00:00:00.123456789+01:00"`, but the
parse cursor of `ParseIsoTimestamp` stops on the ninth fraction digit
(time.cpp:295-303), so the `+01:00` is never seen and the result is the
plain UTC reading `946684800.123456789 s`. -/
theorem C4_nine_digit_fraction_drops_offset :
    parseIsoTimestamp "2000-01-01T00:00:00.123456789+01:00".data =
      some 946684800123456789 ∧
      (946684800123456789 : Int) ≠ (946684800 - 3600) * 1000000000 + 123456789 := by
  constructor
  · rfl
  · decide

/-- Counterexample to C8 as stated: a month field is not rejected.
`ParseIsoDuration("P1M")` succeeds and returns 31 days (the parser stores
the month in `tm_mon`, time.cpp:420-424, and `timegm` folds it into
days). -/
theorem C8_month_field_is_accepted :
    parseIsoDuration "P1M".data = .ok (2678400 * 1000000000) := by
  rfl

/-- Counterexample to C9 as stated: after a complete `StoreParameters`
call with a negative `time_diff` the four published words do not carry one
common stamp. Storing `(1, 1, -1)` from counter `0` gives stamp `4095` in
the first word (the sign-extended `diff >> 32` floods its top bits,
time.cpp:151) but stamp `1` in the second. -/
theorem C9_negative_diff_breaks_stamp :
    (storeParameters ⟨1, 1, -1⟩ 0).1.params1 >>> 52 = 4095 ∧
      (storeParameters ⟨1, 1, -1⟩ 0).1.params2 >>> 52 = 1 ∧ (4095 : Nat) ≠ 1 := by
  refine ⟨by decide, by decide, by decide⟩

/-! ## Claim theorems: continuity and store invariants -/

/-- C2. Continuity across a `SetTimeStretching` switch: whenever a valid
call that changes the stretching factor completes (its internal
`LoadParameters` calls terminate, which on this path means the old
application-time offset `system_time − app_time` is nonnegative and in
`int64` range), the application time computed under the newly published
parameters at the system-time instant of the change equals the
application time computed under the old state at that same instant. -/
theorem C2_application_time_continuous_across_switch
    (app_start : Int) (st : EngineState) (n d : Nat) (system_time app_time : Int)
    (p : tTimeStretchingParameters)
    (hn1 : 1 ≤ n) (hn6 : n ≤ 1000000) (hd1 : 1 ≤ d) (hd6 : d ≤ 1000000)
    (hload : loadParameters st.store = some p)
    (hchange : factorNe n d p.time_scaling_numerator p.time_scaling_denominator = true)
    (happ : toApplicationTime app_start st system_time = some app_time)
    (hle : app_time ≤ system_time) (hrange : system_time - app_time < 2 ^ 63) :
    ∃ st2 notifs, setTimeStretching app_start n d system_time st = some (st2, notifs) ∧
      toApplicationTime app_start st2 system_time = some app_time := by
  have hvalid : ¬(n = 0 ∨ 1000000 < n ∨ d = 0 ∨ 1000000 < d) := by omega
  simp only [setTimeStretching, if_neg hvalid, hload, hchange, happ, if_true]
  refine ⟨_, _, rfl, ?_⟩
  simp only [toApplicationTime,
    loadParameters_storeParameters ⟨n, d, system_time - app_time⟩ st.counter hn1
      (show n < 2 ^ 20 by omega) hd1 (show d < 2 ^ 20 by omega)
      (show (0 : Int) ≤ system_time - app_time by omega) hrange,
    Option.map_some']
  rw [Nat.cast_one, Int.tdiv_one, mul_one]
  congr 1
  omega

/-- Witness for C2: a first valid stretch change `(2, 1)` from the
initial state at system time `100`, whose old application time is `100`. -/
theorem C2_witness :
    ∃ st2 notifs, setTimeStretching 0 2 1 100 initialState = some (st2, notifs) ∧
      toApplicationTime 0 st2 100 = some 100 :=
  C2_application_time_continuous_across_switch 0 initialState 2 1 100 100 ⟨1, 1, 0⟩
    (by decide) (by decide) (by decide) (by decide) (by rfl) (by rfl) (by rfl)
    (by decide) (by decide)

/-- C9 (amended). After a complete `StoreParameters` call whose
`time_diff` is nonnegative (and whose numerator and denominator fit the
20-bit fields, as validation guarantees), all four published words carry
the same 12-bit generation stamp in their top bits, that stamp is the
previous counter plus one modulo 4096, and both primary words are written
before either copy word. The nonnegativity proviso is forced by
`C9_negative_diff_breaks_stamp`: a negative `time_diff` floods the first
word's stamp bits. -/
theorem C9_store_stamp_and_write_order
    (p : tTimeStretchingParameters) (c : Nat)
    (hn : p.time_scaling_numerator < 2 ^ 20) (hd : p.time_scaling_denominator < 2 ^ 20)
    (h0 : 0 ≤ p.time_diff) (h1 : p.time_diff < 2 ^ 63) :
    (storeParameters p c).2 = (c + 1) % 4096 ∧
    (∀ w ∈ storeParametersWrites p c, w.2 >>> 52 = (c + 1) % 4096) ∧
    (∀ i j wi wj, (storeParametersWrites p c).get? i = some wi →
      (storeParametersWrites p c).get? j = some wj →
      wi.1.isPrimary = true → wj.1.isCopy = true → i < j) := by
  obtain ⟨n, d, diff⟩ := p
  simp only at hn hd h0 h1
  have hc'lt : (c + 1) &&& cSTAMP_MASK < 2 ^ 12 := bumped_counter_lt c
  have hmask : (c + 1) &&& cSTAMP_MASK = (c + 1) % 4096 := by
    rw [cSTAMP_MASK, show (0xFFF : Nat) = 2 ^ 12 - 1 from by norm_num, land_two_pow_sub_one]
    norm_num
  set c' := (c + 1) &&& cSTAMP_MASK with hc'
  have hs0 : encodeWord0 c' n diff >>> 52 = c' := by
    rw [encodeWord0_arith c' n diff hn h0 h1, Nat.shiftRight_eq_div_pow]
    omega
  have hs1 : encodeWord1 c' d diff >>> 52 = c' := by
    rw [encodeWord1_arith c' d diff hd h0 h1, Nat.shiftRight_eq_div_pow]
    omega
  refine ⟨hmask, ?_, ?_⟩
  · intro w hw
    simp only [storeParametersWrites, List.mem_cons, List.not_mem_nil, or_false] at hw
    rcases hw with h | h | h | h <;> subst h <;> rw [← hc'] <;> first
      | (rw [hs0]; exact hmask)
      | (rw [hs1]; exact hmask)
  · intro i j wi wj hi hj hpi hcj
    simp only [storeParametersWrites] at hi hj
    match i, hi with
    | 0, hi =>
      simp only [List.get?] at hi
      cases hi
      match j, hj with
      | 0, hj => simp only [List.get?] at hj; cases hj; simp [StoreLoc.isCopy] at hcj
      | 1, hj => simp only [List.get?] at hj; cases hj; simp [StoreLoc.isCopy] at hcj
      | 2, _ => omega
      | 3, _ => omega
      | (k + 4), _ => omega
    | 1, hi =>
      simp only [List.get?] at hi
      cases hi
      match j, hj with
      | 0, hj => simp only [List.get?] at hj; cases hj; simp [StoreLoc.isCopy] at hcj
      | 1, hj => simp only [List.get?] at hj; cases hj; simp [StoreLoc.isCopy] at hcj
      | 2, _ => omega
      | 3, _ => omega
      | (k + 4), _ => omega
    | 2, hi =>
      simp only [List.get?] at hi
      cases hi
      simp [StoreLoc.isPrimary] at hpi
    | 3, hi =>
      simp only [List.get?] at hi
      cases hi
      simp [StoreLoc.isPrimary] at hpi
    | (k + 4), hi =>
      simp only [List.get?] at hi
      exact Option.noConfusion hi

/-- Witness for C9 at the concrete store of `(2, 3, 5)` over counter `7`. -/
theorem C9_witness :
    (storeParameters ⟨2, 3, 5⟩ 7).2 = (7 + 1) % 4096 ∧
    (∀ w ∈ storeParametersWrites ⟨2, 3, 5⟩ 7, w.2 >>> 52 = (7 + 1) % 4096) ∧
    (∀ i j wi wj, (storeParametersWrites ⟨2, 3, 5⟩ 7).get? i = some wi →
      (storeParametersWrites ⟨2, 3, 5⟩ 7).get? j = some wj →
      wi.1.isPrimary = true → wj.1.isCopy = true → i < j) :=
  C9_store_stamp_and_write_order ⟨2, 3, 5⟩ 7 (by decide) (by decide) (by decide) (by decide)

/-! ## Claim theorems: duration parse error characterization -/

/-- The main scan of `ParseIsoDuration` succeeds exactly on the bodies the
specification-side recognizer accepts, for every starting state. -/
theorem parseDurationLoop_isOk (cs : List Char) :
    ∀ (time : Bool) (cur : Option Nat) (t : TmFields),
      (parseDurationLoop time cur t cs).isOk = durationBodyAccepted time cur.isSome cs := by
  induction cs with
  | nil =>
    intro time cur t
    cases cur <;> rfl
  | cons c rest ih =>
    intro time cur t
    by_cases hdig : c.isDigit
    · cases cur <;> simp [parseDurationLoop, durationBodyAccepted, hdig, ih]
    · cases cur with
      | none =>
        by_cases hT : c = 'T'
        · subst hT
          simp [parseDurationLoop, durationBodyAccepted, hdig, ih]
        · simp [parseDurationLoop, durationBodyAccepted, hdig, hT, Except.isOk, Except.toBool]
      | some v =>
        by_cases hY : c = 'Y'
        · subst hY; simp [parseDurationLoop, durationBodyAccepted, hdig, ih]
        · by_cases hM : c = 'M'
          · subst hM
            cases time <;> simp [parseDurationLoop, durationBodyAccepted, hdig, ih]
          · by_cases hD : c = 'D'
            · subst hD; simp [parseDurationLoop, durationBodyAccepted, hdig, ih]
            · by_cases hH : c = 'H'
              · subst hH
                cases time
                · simp [parseDurationLoop, durationBodyAccepted, hdig, Except.isOk,
                    Except.toBool]
                · simp [parseDurationLoop, durationBodyAccepted, hdig, ih]
              · by_cases hS : c = 'S'
                · subst hS
                  cases time
                  · simp [parseDurationLoop, durationBodyAccepted, hdig, Except.isOk,
                      Except.toBool]
                  · simp [parseDurationLoop, durationBodyAccepted, hdig, ih]
                · simp [parseDurationLoop, durationBodyAccepted, hdig, hY, hM, hD, hH, hS,
                    Except.isOk, Except.toBool]

/-- C8 (amended). `ParseIsoDuration` raises a distinguishable parse error
(it never silently returns a value) exactly when the string fails the
recognizer `durationAccepted`: it must start with `P` and, after
stripping a trailing `.fraction` before a final `S`, every maximal digit
run must be followed by one of the unit letters `Y`/`M`/`D`/`H`/`S`, the
letters `H` and `S` must come after the `T` marker, every other character
must be a `T`, and no digit run may be left dangling. In particular a
month field (digits followed by `M` before the `T`) is accepted — and
folded into days — rather than rejected as the original claim stated
(see `C8_month_field_is_accepted`). -/
theorem C8_parse_error_characterization (s : List Char) :
    (parseIsoDuration s).isOk = durationAccepted s := by
  cases s with
  | nil => rfl
  | cons c rest =>
    simp only [parseIsoDuration, durationAccepted]
    by_cases hP : c = 'P'
    · subst hP
      rw [if_neg (by simp)]
      rcases h : parseDurationLoop false none initialDurationTm
          ((stripFractionalSeconds ('P' :: rest)).2.drop 1) with e | t <;>
        · have h2 := parseDurationLoop_isOk ((stripFractionalSeconds ('P' :: rest)).2.drop 1)
            false none initialDurationTm
          rw [h] at h2
          simpa [Except.isOk, Except.toBool, List.drop_one] using h2
    · simp [hP, Except.isOk, Except.toBool]

/-! ## Claim theorems: well-formed timestamp parsing -/

/-- Facts about decimal digit characters, used to read rendered fields
back. -/
theorem digitChar_spec : ∀ d, d < 10 → (digitChar d).isDigit = true ∧
    digitVal (digitChar d) = d ∧ digitChar d ≠ ':' ∧ digitChar d ≠ '+' ∧
    digitChar d ≠ '-' ∧ digitChar d ≠ 'Z' ∧ digitChar d ≠ '.' := by decide

/-- The first rendered digit decides the `'3'` comparison of the
half-hour branch. -/
theorem digitChar_eq_three : ∀ d, d < 10 → ((digitChar d = '3') ↔ d = 3) := by decide

/-- `takeWhile` walks through a prefix whose elements all satisfy the
predicate. -/
theorem takeWhile_append_of_all {α : Type} {p : α → Bool} {xs ys : List α}
    (h : ∀ x ∈ xs, p x = true) : (xs ++ ys).takeWhile p = xs ++ ys.takeWhile p := by
  induction xs with
  | nil => rfl
  | cons a l ih =>
    simp only [List.cons_append, List.takeWhile_cons, h a (by simp), ih
      fun x hx => h x (by simp [hx]), if_true]

/-- `dropWhile` drops a prefix whose elements all satisfy the predicate. -/
theorem dropWhile_append_of_all {α : Type} {p : α → Bool} {xs ys : List α}
    (h : ∀ x ∈ xs, p x = true) : (xs ++ ys).dropWhile p = ys.dropWhile p := by
  induction xs with
  | nil => rfl
  | cons a l ih =>
    simp only [List.cons_append, List.dropWhile_cons, h a (by simp), if_true]
    exact ih fun x hx => h x (by simp [hx])

/-- Reading two rendered digits gives back the rendered value. -/
theorem read2_renderTwo {n : Nat} (h : n < 100) (rest : List Char) :
    read2 (renderTwo n ++ rest) = some (n, rest) := by
  have h1 := digitChar_spec (n / 10) (by omega)
  have h2 := digitChar_spec (n % 10) (by omega)
  simp only [renderTwo, List.cons_append, List.nil_append, read2, h1.1, h2.1, and_self,
    if_true, h1.2.1, h2.2.1, Option.some.injEq, Prod.mk.injEq, and_true]
  omega

/-- Reading four rendered digits gives back the rendered value. -/
theorem read4_renderFour {n : Nat} (h : n < 10000) (rest : List Char) :
    read4 (renderFour n ++ rest) = some (n, rest) := by
  have h1 := digitChar_spec (n / 1000) (by omega)
  have h2 := digitChar_spec (n / 100 % 10) (by omega)
  have h3 := digitChar_spec (n / 10 % 10) (by omega)
  have h4 := digitChar_spec (n % 10) (by omega)
  simp only [renderFour, List.cons_append, List.nil_append, read4, h1.1, h2.1, h3.1, h4.1,
    and_self, if_true, h1.2.1, h2.2.1, h3.2.1, h4.2.1, Option.some.injEq, Prod.mk.injEq,
    and_true]
  omega

/-- `natOfDigits` over rendered digits is the decimal value. -/
theorem natOfDigits_map_digitChar (l : List Nat) (h : ∀ d ∈ l, d < 10) :
    natOfDigits (l.map digitChar) = l.foldl (fun a d => a * 10 + d) 0 := by
  suffices H : ∀ a, (l.map digitChar).foldl (fun a c => a * 10 + digitVal c) a =
      l.foldl (fun a d => a * 10 + d) a from H 0
  induction l with
  | nil => intro a; rfl
  | cons d t ih =>
    intro a
    simp only [List.map_cons, List.foldl_cons, (digitChar_spec d (h d (by simp))).2.1]
    exact ih (fun x hx => h x (by simp [hx])) _

/-- `natOfDigits` of a two-digit rendering. -/
theorem natOfDigits_renderTwo {n : Nat} (h : n < 100) : natOfDigits (renderTwo n) = n := by
  have h1 := digitChar_spec (n / 10) (by omega)
  have h2 := digitChar_spec (n % 10) (by omega)
  simp only [renderTwo, natOfDigits, List.foldl_cons, List.foldl_nil, h1.2.1, h2.2.1]
  omega

/-- The rendered timezone designator starts with a non-digit (or is
empty). -/
theorem timestampFraction_renderTz (tz : TzDesignator) :
    timestampFraction (renderTzDesignator tz) = (0, renderTzDesignator tz) := by
  cases tz with
  | absent => rfl
  | zulu => rfl
  | offset neg oh om => cases neg <;> rfl

/-- Evaluation of the fraction scanner on a rendered fraction of at most
eight digits followed by a rendered designator. -/
theorem timestampFraction_render (frac : List Nat) (tz : TzDesignator)
    (hfrac : ∀ d ∈ frac, d < 10) (hflen : frac.length ≤ 8) :
    timestampFraction ((if frac.isEmpty then [] else '.' :: frac.map digitChar) ++
        renderTzDesignator tz) =
      (fracValue frac, renderTzDesignator tz) := by
  cases frac with
  | nil =>
    simp only [List.isEmpty_nil, if_true, List.nil_append, timestampFraction_renderTz,
      fracValue, List.foldl_nil, Nat.zero_mul]
  | cons d t =>
    have hall : ∀ c ∈ (d :: t).map digitChar, c.isDigit = true := by
      intro c hc
      simp only [List.mem_map] at hc
      obtain ⟨x, hx, rfl⟩ := hc
      exact (digitChar_spec x (hfrac x hx)).1
    have htake : (((d :: t).map digitChar) ++ renderTzDesignator tz).takeWhile Char.isDigit =
        (d :: t).map digitChar := by
      rw [takeWhile_append_of_all hall]
      have h2 : (renderTzDesignator tz).takeWhile Char.isDigit = [] := by
        cases tz with
        | absent => rfl
        | zulu => rfl
        | offset neg oh om => cases neg <;> rfl
      simp [h2]
    have hdrop : (((d :: t).map digitChar) ++ renderTzDesignator tz).drop
        (((d :: t).map digitChar).length) = renderTzDesignator tz :=
      List.drop_left _ _
    rw [if_neg (by simp)]
    simp only [List.cons_append, timestampFraction, htake]
    rw [if_pos (by simpa using hflen)]
    rw [hdrop, natOfDigits_map_digitChar _ hfrac]
    simp [fracValue]

/-- Evaluation of the timezone handler on a rendered designator: exactly
the adjustment claim C4 describes. -/
theorem parseTzOffset_render (tz : TzDesignator)
    (htz : ∀ neg oh om, tz = .offset neg oh om → oh < 100 ∧ om < 100) :
    parseTzOffset (renderTzDesignator tz) = claimTzShift tz := by
  cases tz with
  | absent => rfl
  | zulu => rfl
  | offset neg oh om =>
    obtain ⟨hoh, hom⟩ := htz neg oh om rfl
    have h1 := digitChar_spec (oh / 10) (by omega)
    have h2 := digitChar_spec (oh % 10) (by omega)
    have hcne : ∀ x ∈ renderTwo oh, decide (x ≠ ':') = true := by
      intro x hx
      simp only [renderTwo, List.mem_cons, List.not_mem_nil, or_false] at hx
      rcases hx with rfl | rfl <;> simp [h1.2.2.1, h2.2.2.1]
    have hup : ((renderTwo oh ++ [':'] ++ renderTwo om).takeWhile fun x => x ≠ ':') =
        renderTwo oh := by
      rw [List.append_assoc, takeWhile_append_of_all hcne]
      simp
    have hdropw : ((renderTwo oh ++ [':'] ++ renderTwo om).dropWhile fun x => x ≠ ':') =
        ':' :: renderTwo om := by
      rw [List.append_assoc, dropWhile_append_of_all hcne]
      simp
    have hdigits : (renderTwo oh).takeWhile Char.isDigit = renderTwo oh := by
      rw [show renderTwo oh = renderTwo oh ++ [] from by simp,
        takeWhile_append_of_all (by
          intro x hx
          simp only [List.append_nil, renderTwo, List.mem_cons, List.not_mem_nil,
            or_false] at hx
          rcases hx with rfl | rfl <;> simp [h1.1, h2.1])]
      simp
    have hthree : ((renderTwo om).head? = some '3') ↔ om / 10 = 3 := by
      simp only [renderTwo, List.head?_cons, Option.some.injEq]
      exact digitChar_eq_three (om / 10) (by omega)
    cases neg
    · show parseTzOffset ('+' :: (renderTwo oh ++ [':'] ++ renderTwo om)) = _
      simp only [parseTzOffset]
      rw [if_pos ⟨Or.inl trivial, by simp [renderTwo, List.contains]⟩, hup, hdropw, hdigits,
        natOfDigits_renderTwo hoh]
      simp only [List.drop_succ_cons, List.drop_zero,
        show (if ('+' : Char) = '-' then (-1 : Int) else 1) = 1 from if_neg (by decide)]
      by_cases h30 : om / 10 = 3
      · rw [if_pos (hthree.mpr h30)]
        simp only [claimTzShift, if_pos h30,
          show (if (false : Bool) = true then (-1 : Int) else 1) = 1 from if_neg (by decide)]
        omega
      · rw [if_neg (fun hc => h30 (hthree.mp hc))]
        simp only [claimTzShift, if_neg h30,
          show (if (false : Bool) = true then (-1 : Int) else 1) = 1 from if_neg (by decide)]
        omega
    · show parseTzOffset ('-' :: (renderTwo oh ++ [':'] ++ renderTwo om)) = _
      simp only [parseTzOffset]
      rw [if_pos ⟨Or.inr trivial, by simp [renderTwo, List.contains]⟩, hup, hdropw, hdigits,
        natOfDigits_renderTwo hoh]
      simp only [List.drop_succ_cons, List.drop_zero, if_true]
      by_cases h30 : om / 10 = 3
      · rw [if_pos (hthree.mpr h30)]
        simp only [claimTzShift, if_pos h30, if_true]
        omega
      · rw [if_neg (fun hc => h30 (hthree.mp hc))]
        simp only [claimTzShift, if_neg h30, if_true]
        omega

/-- A fixed separator is consumed. -/
theorem expectChar_cons (e : Char) (rest : List Char) : expectChar e (e :: rest) = some rest := by
  simp [expectChar]

/-- C4 (amended). For every well-formed timestamp string
`YYYY-MM-DDTHH:MM:SS` (any four-digit year, fields in range) with a
fractional-second part of at most eight digits and any timezone
designator, `ParseIsoTimestamp` returns the instant whose nanosecond part
is the fraction digits padded to nine digits, and whose seconds part is
the fields read as UTC (`timegm`), adjusted by subtracting the `±HH:MM`
offset (a minutes component starting with `3` contributing a half hour)
when an offset designator is present and by nothing for `Z` or absence.
With exactly nine fraction digits the offset is instead ignored
(`C4_nine_digit_fraction_drops_offset`), so nine-digit fractions are
excluded here. -/
theorem C4_well_formed_timestamp_parse
    (y mo dy hh mi ss : Nat) (frac : List Nat) (tz : TzDesignator)
    (hy2 : y < 10000)
    (hmo1 : 1 ≤ mo) (hmo2 : mo ≤ 12) (hdy1 : 1 ≤ dy) (hdy2 : dy ≤ 31)
    (hhh : hh ≤ 23) (hmi : mi ≤ 59) (hss : ss ≤ 59)
    (hfrac : ∀ d ∈ frac, d < 10) (hflen : frac.length ≤ 8)
    (htz : ∀ neg oh om, tz = .offset neg oh om → oh < 100 ∧ om < 100) :
    parseIsoTimestamp (renderTimestamp y mo dy hh mi ss frac tz) =
      some ((timegm ⟨ss, mi, hh, dy, mo - 1, (y : Int) - 1900⟩ + claimTzShift tz) *
          1000000000 +
        (fracValue frac : Int)) := by
  have h4 : ∀ rest, read4 (renderFour y ++ rest) = some (y, rest) :=
    fun rest => read4_renderFour hy2 rest
  have rmo : ∀ rest, read2 (renderTwo mo ++ rest) = some (mo, rest) :=
    fun rest => read2_renderTwo (by omega) rest
  have rdy : ∀ rest, read2 (renderTwo dy ++ rest) = some (dy, rest) :=
    fun rest => read2_renderTwo (by omega) rest
  have rhh : ∀ rest, read2 (renderTwo hh ++ rest) = some (hh, rest) :=
    fun rest => read2_renderTwo (by omega) rest
  have rmi : ∀ rest, read2 (renderTwo mi ++ rest) = some (mi, rest) :=
    fun rest => read2_renderTwo (by omega) rest
  have rss : ∀ rest, read2 (renderTwo ss ++ rest) = some (ss, rest) :=
    fun rest => read2_renderTwo (by omega) rest
  simp only [renderTimestamp, parseIsoTimestamp, List.append_assoc, List.cons_append,
    List.singleton_append, List.nil_append, h4, rmo, rdy, rhh, rmi, rss, expectChar_cons,
    Option.bind_eq_bind, Option.some_bind]
  rw [if_pos ⟨hmo1, hmo2, hdy1, hdy2, hhh, hmi, by omega⟩]
  rw [timestampFraction_render frac tz hfrac hflen]
  rw [parseTzOffset_render tz htz]

/-- Witness for C4 at the timestamp of the repository's unit test,
`2014-04-04T14:14:14.141414+02:00`. -/
theorem C4_witness :
    parseIsoTimestamp
        (renderTimestamp 2014 4 4 14 14 14 [1, 4, 1, 4, 1, 4] (.offset false 2 0)) =
      some ((timegm ⟨14, 14, 14, 4, 4 - 1, (2014 : Int) - 1900⟩ +
          claimTzShift (.offset false 2 0)) * 1000000000 +
        (fracValue [1, 4, 1, 4, 1, 4] : Int)) :=
  C4_well_formed_timestamp_parse 2014 4 4 14 14 14 [1, 4, 1, 4, 1, 4] (.offset false 2 0)
    (by decide) (by decide) (by decide) (by decide) (by decide) (by decide)
    (by decide) (by decide) (by decide) (by decide)
    (by
      intro neg oh om h
      injection h with h1 h2 h3
      subst h1
      subst h2
      subst h3
      exact ⟨by norm_num, by norm_num⟩)

end RRLibTime
